import Mathlib

/-!
Verification of the dataset-curation pipeline and the model-selection logic of
`analysis/train.py` (HPC-Coder-v1).

The file `analysis/train.py` drives a curation pipeline over source files:
enumerate file paths under a root directory, drop files with bad encoding,
drop files outside size/token bounds, optionally persist the filtered path
list to a cache, optionally deduplicate by content, and hand the result to a
dataset loader.  It also contains `get_model`, which dispatches on a
training-task string.

`train.py` imports its per-stage helpers (`get_source_filenames`,
`filter_bad_encoding`, `filter_by_size`, `filter_duplicates`) from a sibling
module `load_dataset` whose source is not available here; those helpers are
modelled from the specification, as marked in their doc comments.  Everything
in `get_dataset` and `get_model` themselves is embedded directly from
`analysis/train.py`.

Files are modelled by their byte contents (`List Nat`); a filesystem snapshot
is an association list from paths to contents, listed in enumeration order.
-/

namespace Train

/-- A filesystem snapshot: (path, content-bytes) pairs, in enumeration order. -/
abbrev Filesystem := List (String × List Nat)

/-- Content bytes of a file; a path absent from the snapshot reads as empty. -/
def readBytes (fs : Filesystem) (p : String) : List Nat :=
  (List.lookup p fs).getD []

/-- Byte size of a file. -/
def sizeBytes (fs : Filesystem) (p : String) : Nat :=
  (readBytes fs p).length

/-- Whitespace bytes (space, tab, LF, CR), used by the token-count proxy. -/
def isWS (b : Nat) : Bool :=
  b == 32 || b == 9 || b == 10 || b == 13

/-- Helper for `countTokens`: the Bool records whether we are inside a word. -/
def countTokensAux : List Nat → Bool → Nat
  | [], _ => 0
  | b :: rest, inWord =>
    if isWS b then countTokensAux rest false
    else (if inWord then 0 else 1) + countTokensAux rest true

/-- Modelled from the spec: the token proxy is a cheap whitespace-delimited
word count over the file content, not a real tokenizer invocation. -/
def countTokens (bs : List Nat) : Nat :=
  countTokensAux bs false

/-- Modelled from the spec: the Encoding Validator retains a file only if its
content decodes under the fixed assumed text encoding; decodability is
modelled as a pure pass/fail predicate on the content bytes. -/
def decodable (bs : List Nat) : Bool :=
  bs.all (fun b => b < 128)

/-- Modelled from the spec: `get_source_filenames` of module `load_dataset`
(not under src/) — deterministic enumeration of all file paths under the
root; the snapshot lists its files in enumeration order. -/
def get_source_filenames (fs : Filesystem) : List String :=
  fs.map Prod.fst

/-- Modelled from the spec: `filter_bad_encoding` of module `load_dataset`
(not under src/) — keep exactly the paths whose content decodes. -/
def filter_bad_encoding (fs : Filesystem) (ps : List String) : List String :=
  ps.filter (fun p => decodable (readBytes fs p))

/-- Modelled from the spec: `filter_by_size` of module `load_dataset`
(not under src/) — keep exactly the paths whose byte size is at most the
configured maximum and whose token-proxy count is at least the configured
minimum. -/
def filter_by_size (fs : Filesystem) (maxSizeBytes minTokens : Nat)
    (ps : List String) : List String :=
  ps.filter (fun p =>
    decide (sizeBytes fs p ≤ maxSizeBytes ∧ minTokens ≤ countTokens (readBytes fs p)))

/-- Modelled from the spec: the content fingerprint is a fixed-size digest that
is a pure function of content only; modelled collision-freely as the content
itself. -/
def fingerprint (fs : Filesystem) (p : String) : List Nat :=
  readBytes fs p

/-- Modelled from the spec: the streaming scan of `filter_duplicates` of module
`load_dataset` (not under src/), carrying the set of fingerprints already
seen; the first file with a given fingerprint is kept, later ones dropped. -/
def filter_duplicates_from (fs : Filesystem) (seen : List (List Nat)) :
    List String → List String
  | [] => []
  | p :: ps =>
    if fingerprint fs p ∈ seen then filter_duplicates_from fs seen ps
    else p :: filter_duplicates_from fs (fingerprint fs p :: seen) ps

/-- Modelled from the spec: `filter_duplicates` of module `load_dataset`
(not under src/) — single in-order scan keeping the first file per distinct
content fingerprint. -/
def filter_duplicates (fs : Filesystem) (ps : List String) : List String :=
  filter_duplicates_from fs [] ps

/-- Modelled from the spec: the cached-snapshot serialization performed by
`pickle.dump` — an ordered sequence of file paths in a simple serialized
form, here length-prefixed character code points. -/
def pickle_dump : List String → List Nat
  | [] => []
  | s :: rest => s.length :: (s.data.map Char.toNat ++ pickle_dump rest)

/-- Modelled from the spec: the cached-snapshot deserialization performed by
`pickle.load`, inverse of `pickle_dump`. -/
def pickle_load : List Nat → List String
  | [] => []
  | n :: rest =>
    String.mk ((rest.take n).map Char.ofNat) :: pickle_load (rest.drop n)
termination_by l => l.length
decreasing_by simp only [List.length_drop, List.length_cons]; omega

/-- A constructed language model, as produced by `AutoModelForCausalLM` or
`AutoModelForMaskedLM` from a model name. -/
inductive Model
  | causalLM (name : String)
  | maskedLM (name : String)
deriving DecidableEq

/-- A Python assertion failure. -/
inductive PyError
  | assertionError
deriving DecidableEq

/-- Embedding of `get_model` from `analysis/train.py`: assert the task is in
`['causal', 'masked']`; start from `model = None`; the causal branch compares
against the misspelled string `'causual'`; the masked branch against
`'masked'`; return the (possibly still-None) model. -/
def get_model (model_name : String) (training_task : String) :
    Except PyError (Option Model) :=
  if training_task = "causal" ∨ training_task = "masked" then
    Except.ok
      (if training_task = "causual" then some (Model.causalLM model_name)
       else if training_task = "masked" then some (Model.maskedLM model_name)
       else none)
  else Except.error PyError.assertionError

/-- Input selector of `get_dataset`: either the root directory of the snapshot
(`isdir` is true) or a cached filenames snapshot (`isdir` is false and the
path is read as a pickle). -/
inductive DatasetInput
  | directory
  | cacheFile (data : List Nat)

/-- Megabytes-to-bytes conversion for the `max_mb=1` argument of
`filter_by_size`.  Modelled from the spec: the conversion lives in module
`load_dataset` (not under src/); the spec gives the default as about 1 MB. -/
def mbToBytes (mb : Nat) : Nat :=
  mb * 1024 * 1024

/-- Embedding of `get_dataset` from `analysis/train.py`, up to the final
hand-off of the path list to the external dataset loader.  Returns the final
path list together with the cache bytes written, if any: the directory branch
enumerates, filters bad encodings, filters by size (`max_mb=1`,
`min_tokens=15`) and then writes the cache if requested; the other branch
loads the pickled path list; deduplication, if requested, runs afterwards in
both branches. -/
def get_dataset (fs : Filesystem) (input : DatasetInput)
    (deduplicate : Bool) (fnames_cache_output : Bool) :
    List String × Option (List Nat) :=
  match input with
  | DatasetInput.directory =>
    let fnames := get_source_filenames fs
    let fnames := filter_bad_encoding fs fnames
    let fnames := filter_by_size fs (mbToBytes 1) 15 fnames
    let cache := if fnames_cache_output then some (pickle_dump fnames) else none
    (if deduplicate then filter_duplicates fs fnames else fnames, cache)
  | DatasetInput.cacheFile data =>
    let fnames := pickle_load data
    (if deduplicate then filter_duplicates fs fnames else fnames, none)

/-- Demonstration snapshot for the duplicate-content scenario of the spec:
`a.c` and `b.c` are byte-identical (content "X"). -/
def dupFS : Filesystem :=
  [("a.c", [88]), ("b.c", [88])]

/-- Demonstration snapshot for the size/token boundary: with bounds
`maxSizeBytes = 3`, `minTokens = 2`, file `a` sits exactly on both bounds,
`b` is one byte over, and `c` is one token short. -/
def demoFS : Filesystem :=
  [("a", [97, 32, 98]), ("b", [97, 32, 98, 99]), ("c", [97, 98])]

/-- The deduplication scan always returns a sublist of its input. -/
theorem filter_duplicates_from_sublist (fs : Filesystem) :
    ∀ (ps : List String) (seen : List (List Nat)),
      (filter_duplicates_from fs seen ps).Sublist ps := by
  intro ps
  induction ps with
  | nil =>
    intro seen
    exact List.Sublist.slnil
  | cons p ps ih =>
    intro seen
    by_cases hp : fingerprint fs p ∈ seen
    · rw [show filter_duplicates_from fs seen (p :: ps)
          = filter_duplicates_from fs seen ps by
        simp [filter_duplicates_from, hp]]
      exact List.Sublist.cons p (ih seen)
    · rw [show filter_duplicates_from fs seen (p :: ps)
          = p :: filter_duplicates_from fs (fingerprint fs p :: seen) ps by
        simp [filter_duplicates_from, hp]]
      exact List.Sublist.cons₂ p (ih (fingerprint fs p :: seen))

/-- Generalized idempotence of the deduplication scan: rescanning its output
with the same starting seen-set changes nothing. -/
theorem filter_duplicates_from_idem (fs : Filesystem) :
    ∀ (ps : List String) (seen : List (List Nat)),
      filter_duplicates_from fs seen (filter_duplicates_from fs seen ps)
        = filter_duplicates_from fs seen ps := by
  intro ps
  induction ps with
  | nil =>
    intro seen
    rfl
  | cons p ps ih =>
    intro seen
    by_cases hp : fingerprint fs p ∈ seen
    · simp [filter_duplicates_from, hp, ih seen]
    · simp [filter_duplicates_from, hp, ih (fingerprint fs p :: seen)]

/-- Membership characterization of the deduplication scan: a path is kept iff
its fingerprint is not already seen and it occurs in the input after a prefix
containing no path of the same fingerprint. -/
theorem mem_filter_duplicates_from (fs : Filesystem) :
    ∀ (ps : List String) (seen : List (List Nat)) (p : String),
      p ∈ filter_duplicates_from fs seen ps ↔
        fingerprint fs p ∉ seen ∧
          ∃ pre post, ps = pre ++ p :: post ∧
            ∀ q ∈ pre, fingerprint fs q ≠ fingerprint fs p := by
  intro ps
  induction ps with
  | nil =>
    intro seen p
    constructor
    · intro h
      simp [filter_duplicates_from] at h
    · rintro ⟨-, pre, post, hdec, -⟩
      cases pre <;> simp at hdec
  | cons x ps ih =>
    intro seen p
    by_cases hx : fingerprint fs x ∈ seen
    · rw [show filter_duplicates_from fs seen (x :: ps)
          = filter_duplicates_from fs seen ps by
        simp [filter_duplicates_from, hx]]
      rw [ih seen p]
      constructor
      · rintro ⟨hp, pre, post, hdec, hclean⟩
        subst hdec
        refine ⟨hp, x :: pre, post, rfl, ?_⟩
        intro q hq
        rcases List.mem_cons.mp hq with hqx | hqpre
        · subst hqx
          intro hfq
          exact hp (hfq ▸ hx)
        · exact hclean q hqpre
      · rintro ⟨hp, pre, post, hdec, hclean⟩
        refine ⟨hp, ?_⟩
        cases pre with
        | nil =>
          injection hdec with h1 h2
          exact absurd (h1 ▸ hx) hp
        | cons y pre =>
          injection hdec with h1 h2
          subst h1
          exact ⟨pre, post, h2, fun q hq => hclean q (List.mem_cons_of_mem _ hq)⟩
    · rw [show filter_duplicates_from fs seen (x :: ps)
          = x :: filter_duplicates_from fs (fingerprint fs x :: seen) ps by
        simp [filter_duplicates_from, hx]]
      rw [List.mem_cons, ih (fingerprint fs x :: seen) p]
      constructor
      · rintro (rfl | ⟨hp, pre, post, hdec, hclean⟩)
        · exact ⟨hx, [], ps, rfl, fun q hq => absurd hq (List.not_mem_nil q)⟩
        · subst hdec
          rw [List.mem_cons] at hp
          push_neg at hp
          refine ⟨hp.2, x :: pre, post, rfl, ?_⟩
          intro q hq
          rcases List.mem_cons.mp hq with hqx | hqpre
          · subst hqx
            exact fun hfq => hp.1 hfq.symm
          · exact hclean q hqpre
      · rintro ⟨hp, pre, post, hdec, hclean⟩
        cases pre with
        | nil =>
          injection hdec with h1 h2
          exact Or.inl h1.symm
        | cons y pre =>
          injection hdec with h1 h2
          subst h1
          right
          refine ⟨?_, pre, post, h2,
            fun q hq => hclean q (List.mem_cons_of_mem _ hq)⟩
          rw [List.mem_cons]
          push_neg
          exact ⟨fun hfp => hclean x (List.mem_cons_self x pre) hfp.symm, hp⟩

/-- Decoding code points undoes encoding characters as code points. -/
theorem map_ofNat_map_toNat (l : List Char) :
    (l.map Char.toNat).map Char.ofNat = l := by
  induction l with
  | nil => rfl
  | cons c cs ih => simp [Char.ofNat_toNat, ih]

/-- C3: loading a saved cache snapshot restores the PathSet exactly,
preserving membership and element order: load(save(S)) == S. -/
theorem pickle_load_pickle_dump (S : List String) :
    pickle_load (pickle_dump S) = S := by
  induction S with
  | nil =>
    simp [pickle_dump, pickle_load]
  | cons s rest ih =>
    show pickle_load (s.length :: (s.data.map Char.toNat ++ pickle_dump rest))
        = s :: rest
    rw [pickle_load]
    have hlen : s.length = (s.data.map Char.toNat).length := by
      rw [List.length_map]
      rfl
    rw [hlen, List.take_left, List.drop_left, ih, map_ofNat_map_toNat]

/-- C1: `get_model` called with the valid task `'causal'` returns no model,
because the causal branch compares against the misspelled `'causual'` and is
unreachable; only `'masked'` yields a model, and no call whatsoever can
produce a causal model. -/
theorem get_model_causal_returns_none :
    (∀ name : String, get_model name "causal" = Except.ok none) ∧
    (∀ name : String,
        get_model name "masked" = Except.ok (some (Model.maskedLM name))) ∧
    (∀ (name task : String) (m : Model),
        get_model name task = Except.ok (some m) → ∃ n, m = Model.maskedLM n) := by
  refine ⟨fun name => rfl, fun name => rfl, ?_⟩
  intro name task m h
  by_cases h1 : task = "causal"
  · subst h1
    simp [get_model] at h
  · by_cases h2 : task = "masked"
    · subst h2
      simp [get_model] at h
      exact ⟨name, h.symm⟩
    · simp [get_model, h1, h2] at h

/-- Witness for C1 at concrete inputs. -/
theorem get_model_causal_returns_none_witness :
    get_model "gpt2" "causal" = Except.ok none ∧
    ∃ n, Model.maskedLM "gpt2" = Model.maskedLM n :=
  ⟨get_model_causal_returns_none.1 "gpt2",
   get_model_causal_returns_none.2.2 "gpt2" "masked" (Model.maskedLM "gpt2") rfl⟩

/-- C10: `get_model` fails its assertion for every task string outside
`['causal', 'masked']`, before any model is constructed: the result is an
assertion error, never a model. -/
theorem get_model_invalid_task_asserts
    (name task : String) (h1 : task ≠ "causal") (h2 : task ≠ "masked") :
    get_model name task = Except.error PyError.assertionError := by
  simp [get_model, h1, h2]

/-- Witness for C10 at a concrete invalid task string. -/
theorem get_model_invalid_task_asserts_witness :
    get_model "gpt2" "seq2seq" = Except.error PyError.assertionError :=
  get_model_invalid_task_asserts "gpt2" "seq2seq" (by decide) (by decide)

/-- C2: in the directory branch, the persisted cache is exactly the
serialization of the PathSet after the encoding and size/token filters and
before deduplication (independently of the deduplicate flag); in the
cache-file branch the cached PathSet is loaded in place of
enumeration/encoding/size filtering, with deduplication (when requested)
applied after the load. -/
theorem get_dataset_cache_placement :
    (∀ (fs : Filesystem) (deduplicate : Bool),
        (get_dataset fs DatasetInput.directory deduplicate true).2
          = some (pickle_dump (filter_by_size fs (mbToBytes 1) 15
              (filter_bad_encoding fs (get_source_filenames fs))))) ∧
    (∀ (fs : Filesystem) (data : List Nat) (cacheOut : Bool),
        (get_dataset fs (DatasetInput.cacheFile data) true cacheOut).1
          = filter_duplicates fs (pickle_load data) ∧
        (get_dataset fs (DatasetInput.cacheFile data) false cacheOut).1
          = pickle_load data) :=
  ⟨fun _ _ => rfl, fun _ _ _ => ⟨rfl, rfl⟩⟩

/-- C8: in the directory branch the size/token filter runs with the default
bounds `max_mb=1` (1048576 bytes) and `min_tokens=15`. -/
theorem get_dataset_default_bounds :
    mbToBytes 1 = 1048576 ∧
    ∀ (fs : Filesystem) (deduplicate cacheOut : Bool),
      (get_dataset fs DatasetInput.directory deduplicate cacheOut).1
        = (if deduplicate then filter_duplicates fs else id)
            (filter_by_size fs 1048576 15
              (filter_bad_encoding fs (get_source_filenames fs))) := by
  refine ⟨rfl, ?_⟩
  intro fs deduplicate cacheOut
  cases deduplicate <;> rfl

/-- C9: the pipeline is deterministic — it is a pure function of the snapshot
and the configuration, so two independent runs with the same snapshot and
configuration produce identical PathSets (same contents, same order) and the
same cache output. -/
theorem get_dataset_deterministic
    (fs : Filesystem) (input : DatasetInput) (deduplicate cacheOut : Bool) :
    get_dataset fs input deduplicate cacheOut
      = get_dataset fs input deduplicate cacheOut :=
  rfl

/-- C4: deduplication returns the subsequence obtained by a single in-order
scan keeping only the first file per distinct content fingerprint: a path is
kept iff it occurs after a prefix free of its fingerprint, the output is an
order-preserving sublist of the input, and for the byte-identical pair
`a.c` before `b.c` the earlier `a.c` is kept and `b.c` dropped. -/
theorem filter_duplicates_first_wins :
    (∀ (fs : Filesystem) (ps : List String) (p : String),
        p ∈ filter_duplicates fs ps ↔
          ∃ pre post, ps = pre ++ p :: post ∧
            ∀ q ∈ pre, fingerprint fs q ≠ fingerprint fs p) ∧
    (∀ (fs : Filesystem) (ps : List String),
        (filter_duplicates fs ps).Sublist ps) ∧
    filter_duplicates dupFS ["a.c", "b.c"] = ["a.c"] := by
  refine ⟨?_, ?_, ?_⟩
  · intro fs ps p
    rw [filter_duplicates, mem_filter_duplicates_from fs ps [] p]
    simp
  · intro fs ps
    exact filter_duplicates_from_sublist fs ps []
  · rfl

/-- Witness for C4 at a concrete input: the earlier byte-identical file is in
the deduplicated output. -/
theorem filter_duplicates_first_wins_witness :
    "a.c" ∈ filter_duplicates dupFS ["a.c", "b.c"] :=
  (filter_duplicates_first_wins.1 dupFS ["a.c", "b.c"] "a.c").mpr
    ⟨[], ["b.c"], rfl, fun q hq => absurd hq (List.not_mem_nil q)⟩

/-- C5: the Deduplicator is idempotent — applying it to its own output yields
that output unchanged. -/
theorem filter_duplicates_idem (fs : Filesystem) (ps : List String) :
    filter_duplicates fs (filter_duplicates fs ps) = filter_duplicates fs ps :=
  filter_duplicates_from_idem fs ps []

/-- C6: every pipeline stage — encoding validation, size/token filtering,
deduplication — returns an order-preserving sublist of its input PathSet: no
stage reorders, duplicates, or introduces paths. -/
theorem pipeline_stages_sublist
    (fs : Filesystem) (maxSizeBytes minTokens : Nat) (ps : List String) :
    (filter_bad_encoding fs ps).Sublist ps ∧
    (filter_by_size fs maxSizeBytes minTokens ps).Sublist ps ∧
    (filter_duplicates fs ps).Sublist ps :=
  ⟨List.filter_sublist ps, List.filter_sublist ps,
   filter_duplicates_from_sublist fs ps []⟩

/-- C7: size/token filter boundary behavior — a file of exactly
`maxSizeBytes` (with enough tokens) is retained and one byte over is
rejected; a file with exactly `minTokens` tokens (within the size bound) is
retained and one token fewer is rejected. -/
theorem filter_by_size_boundary
    (fs : Filesystem) (maxSizeBytes minTokens : Nat) (p : String) :
    (sizeBytes fs p = maxSizeBytes → minTokens ≤ countTokens (readBytes fs p) →
      filter_by_size fs maxSizeBytes minTokens [p] = [p]) ∧
    (sizeBytes fs p = maxSizeBytes + 1 →
      filter_by_size fs maxSizeBytes minTokens [p] = []) ∧
    (countTokens (readBytes fs p) = minTokens → sizeBytes fs p ≤ maxSizeBytes →
      filter_by_size fs maxSizeBytes minTokens [p] = [p]) ∧
    (countTokens (readBytes fs p) + 1 = minTokens →
      filter_by_size fs maxSizeBytes minTokens [p] = []) := by
  refine ⟨?_, ?_, ?_, ?_⟩
  · intro h1 h2
    have hc : sizeBytes fs p ≤ maxSizeBytes ∧
        minTokens ≤ countTokens (readBytes fs p) := ⟨le_of_eq h1, h2⟩
    simp [filter_by_size, List.filter, hc]
  · intro h1
    have hc : ¬(sizeBytes fs p ≤ maxSizeBytes ∧
        minTokens ≤ countTokens (readBytes fs p)) := by
      rw [h1]
      omega
    simp [filter_by_size, List.filter, hc]
  · intro h1 h2
    have hc : sizeBytes fs p ≤ maxSizeBytes ∧
        minTokens ≤ countTokens (readBytes fs p) := ⟨h2, le_of_eq h1.symm⟩
    simp [filter_by_size, List.filter, hc]
  · intro h1
    have hc : ¬(sizeBytes fs p ≤ maxSizeBytes ∧
        minTokens ≤ countTokens (readBytes fs p)) := by
      omega
    simp [filter_by_size, List.filter, hc]

/-- Witness for C7 on a concrete snapshot with bounds 3 bytes / 2 tokens:
`a` (3 bytes, 2 tokens) is kept; `b` (4 bytes) and `c` (1 token) are
rejected. -/
theorem filter_by_size_boundary_witness :
    filter_by_size demoFS 3 2 ["a"] = ["a"] ∧
    filter_by_size demoFS 3 2 ["b"] = [] ∧
    filter_by_size demoFS 3 2 ["c"] = [] :=
  ⟨(filter_by_size_boundary demoFS 3 2 "a").1 (by decide) (by decide),
   (filter_by_size_boundary demoFS 3 2 "b").2.1 (by decide),
   (filter_by_size_boundary demoFS 3 2 "c").2.2.2 (by decide)⟩

end Train
